import Mathlib

/-!
# Kite: authentication / dispatch pipeline and Kontrol client

A shallow embedding of `kite/request.go` and `kite/kontrol.go`.

Conventions of the embedding.

* Go pointers to records that are reachable from one owner only are embedded
  by value: a `Request` carries its `RemoteKite` and its `LocalKite`, and a
  function that mutates through the pointer returns the updated record.
* A Go `panic` is an explicit outcome (`Outcome.panicked`), and `defer` is
  unfolded in the order in which the deferred calls run.
* Effects on the outside world (invoking a handler, invoking the response
  callback, calling `onEvent`) are returned as a list, oldest first.
* Of the calls to `k.Log.*` only the warning of `recoverError` is kept, as an
  effect; the others change nothing that is modelled and are left out.
* Strings are Lean strings. The bytes that `net.SplitHostPort` and
  `net.JoinHostPort` look for are ASCII, so working on characters instead of
  bytes gives the same split for every valid UTF-8 string.
-/

namespace protocol

/-- The value of `protocol.AllowKite` (`src/protocol/protocol.go`). -/
def AllowKite : String := "AllowKite"

/-- Modelled from the spec: the constant `protocol.RejectKite`, whose
declaration is not among the sources; the register result is one of
`AllowKite`, `RejectKite` or something else. -/
def RejectKite : String := "RejectKite"

/-- Modelled from the spec: the identity record `protocol.Kite` as
`kite/request.go` and `kite/kontrol.go` use it (name, owning username,
process id, version, and the host of its URL). -/
structure Kite where
  Name : String
  Username : String
  ID : String
  Version : String
  Host : String
deriving DecidableEq, Repr

/-- Modelled from the spec: `protocol.Token`, `{key, ttl}`; the TTL is a Go
`int` counting seconds. -/
structure Token where
  Key : String
  TTL : Int
deriving DecidableEq, Repr

/-- Modelled from the spec: `protocol.KiteWithToken`, one entry of a
`getKites` answer. -/
structure KiteWithToken where
  Kite : Kite
  Token : Token
deriving DecidableEq, Repr

/-- Modelled from the spec: the action of a `protocol.KiteEvent`. -/
inductive KiteAction where
  | Register
  | Remove
  | Update
deriving DecidableEq, Repr

/-- Modelled from the spec: `protocol.KiteEvent`,
`{action, identity, optional token}`. -/
structure KiteEvent where
  Action : KiteAction
  Kite : Kite
  Token : Option Token
deriving DecidableEq, Repr

/-- Modelled from the spec: `protocol.RegisterResult`, the decoded answer of
the directory to `register`. -/
structure RegisterResult where
  Result : String
  Username : String
  PublicIP : String
deriving DecidableEq, Repr

end protocol

namespace kite

set_option linter.dupNamespace false

/-! ## Data model of `request.go` -/

/-- The struct `Error` of `request.go` (`Type_` is its field `Type`). -/
structure Error where
  Type_ : String
  Message : String
deriving DecidableEq, Repr

/-- The method `Error.Error`: `"Kite error: %s: %s"`. -/
def Error.Error (e : Error) : String :=
  "Kite error: " ++ e.Type_ ++ ": " ++ e.Message

/-- Modelled from the spec: the struct `Authentication`, a credential of type
`"kodingKey"` or `"token"`; `validUntil` is an absolute instant in
nanoseconds since the epoch, `none` for Go's nil pointer. -/
structure Authentication where
  Type_ : String
  Key : String
  validUntil : Option Int
deriving DecidableEq, Repr

/-- Modelled from the spec: the peer connection `RemoteKite`, which embeds the
peer's `protocol.Kite` and owns its `Authentication`. -/
structure RemoteKite where
  Kite : protocol.Kite
  Authentication : Authentication
deriving DecidableEq, Repr

/-- The fields of the local `Kite` that the modelled code reads. The
`Authenticators` map holds functions over `Request` and is passed next to the
record (see `Authenticators`). -/
structure Kite where
  Kite : protocol.Kite
  KodingKey : String
  disableAuthenticate : Bool
deriving DecidableEq, Repr

/-- The struct `Request`. `Args` stands for the raw `dnode.Arguments`. -/
structure Request where
  Method : String
  Args : String
  LocalKite : Kite
  RemoteKite : RemoteKite
  Username : String
  Authentication : Authentication
  RemoteAddr : String
deriving DecidableEq, Repr

/-- An authenticator, `func(*Request) error`: it may write through the
pointer, and it returns nil (`none`) or an error with the given message. -/
abbrev Authenticator := Request → Option String × Request

/-- The map `Kite.Authenticators`: a missing key and a nil function both read
as `none`. -/
abbrev Authenticators := String → Option Authenticator

/-- Go's `interface{}` result of a handler: nil or a payload. -/
abbrev Result := Option String

/-- A value reaching `recover()`, by the case of the type switch of
`recoverError` it selects. -/
inductive Raised where
  | kiteError (e : Error)
  | argumentError (msg : String)
  | error (msg : String)
  | other (str : String)
deriving DecidableEq, Repr

/-- What calling a handler does: it returns `(result, err)` or it panics. -/
inductive Outcome where
  | returned (result : Result) (err : Option Raised)
  | panicked (v : Raised)
deriving DecidableEq, Repr

/-- A handler bound to a method, `HandlerFunc`. -/
abbrev HandlerFunc := Request → Outcome

/-- The struct `callbackArg`, the only argument of a response callback. -/
structure callbackArg where
  Error : Option Error
  Result : Result
deriving DecidableEq, Repr

/-- Modelled from the spec: the decoded leading argument `callOptions`
(identity, authentication, actual arguments, optional response callback).
A `dnode.Function` is named by a number. -/
structure callOptions where
  Kite : protocol.Kite
  Authentication : Authentication
  WithArgs : String
  ResponseCallback : Option Nat
deriving DecidableEq, Repr

/-- What `runMethod` does to the outside world: it calls the handler, it logs
a warning, it calls the response callback `fn` with `arg`. -/
inductive Effect where
  | handlerCalled (r : Request)
  | logWarning (msg : String)
  | callbackCalled (fn : Nat) (arg : callbackArg)
deriving DecidableEq, Repr

/-! ## `request.go` -/

/-- The closure returned by `recoverError(kiteErr)`, run with the value `r`
that `recover()` yields (`none` when nothing was raised). It returns the value
of its variable `kiteErr` afterwards. That variable is the parameter of
`recoverError`, a copy of the caller's pointer: the closure assigns to the
copy, and no variable of the caller is written. -/
def recoverError (kiteErr : Option Error) (r : Option Raised) : Option Error :=
  match r with
  | none => kiteErr
  | some (Raised.kiteError err) => some err
  | some (Raised.argumentError msg) => some ⟨"argumentError", msg⟩
  | some (Raised.error msg) => some ⟨"genericError", msg⟩
  | some (Raised.other str) => some ⟨"genericError", str⟩

/-- Modelled from the spec: `newRemoteKiteWithClient`, which creates the peer
connection from the decoded identity and authentication. -/
def newRemoteKiteWithClient (k : protocol.Kite) (auth : Authentication) : RemoteKite :=
  ⟨k, auth⟩

/-- The function `Kite.parseRequest`, after the leading argument has been
decoded into `options`. `cached` is the entry `"remoteKite"` of the
properties of the transport; the second component is that entry afterwards.
(The `OnConnect` observers notified for a new peer are not modelled.) -/
def parseRequest (k : Kite) (method : String) (options : callOptions)
    (cached : Option RemoteKite) (remoteAddr : String) :
    (Request × Option Nat) × RemoteKite :=
  let remoteKite : RemoteKite :=
    match cached with
    | none => newRemoteKiteWithClient options.Kite options.Authentication
    | some rk => { rk with Kite := options.Kite }
  (({ Method := method
      Args := options.WithArgs
      LocalKite := k
      RemoteKite := remoteKite
      RemoteAddr := remoteAddr
      Username := options.Kite.Username
      Authentication := options.Authentication }, options.ResponseCallback), remoteKite)

/-- The method `Request.authenticate`. It returns the `*Error` and the
request (with its peer connection) as the call leaves it. -/
def Request.authenticate (auths : Authenticators) (r : Request) : Option Error × Request :=
  if r.RemoteAddr = "" then (none, r)
  else
    match auths r.Authentication.Type_ with
    | none =>
      (some ⟨"authenticationError",
        "Unknown authentication type: " ++ r.Authentication.Type_⟩, r)
    | some f =>
      match f r with
      | (some msg, r1) => (some ⟨"authenticationError", msg⟩, r1)
      | (none, r1) =>
        (none, { r1 with RemoteKite :=
          { r1.RemoteKite with Kite :=
            { r1.RemoteKite.Kite with Username := r1.Username } } })

/-- The method `Kite.AuthenticateFromKodingKey`. -/
def Kite.AuthenticateFromKodingKey (k : kite.Kite) : Authenticator := fun r =>
  if r.Authentication.Key ≠ k.KodingKey then (some "Invalid Koding Key", r)
  else if r.RemoteKite.Kite.Username = "" ∧ k.Kite.Username ≠ "" then
    (none, { r with RemoteKite :=
      { r.RemoteKite with Kite :=
        { r.RemoteKite.Kite with Username := k.Kite.Username } } })
  else (none, r)

/-- The statement `if !kite.disableAuthenticate { kiteErr = request.authenticate() }`
of `runMethod`: the value of `kiteErr` and the request afterwards. -/
def authStep (kite : Kite) (auths : Authenticators) (request : Request) :
    Option Error × Request :=
  if kite.disableAuthenticate then (none, request) else request.authenticate auths

/-- The variables of `runMethod` that its deferred functions read. -/
structure Locals where
  result : Result
  kiteErr : Option Error
  callback : Option Nat
deriving DecidableEq, Repr

/-- The body of `runMethod` after the two `defer` statements, up to its
`return` or its panic: the variables as the body leaves them, the value raised
(`none` for a normal return) and the effects so far. `decoded` is an error
when decoding the leading argument panics inside `parseRequest` (a
`*dnode.ArgumentError` with message `decodeMsg`), before `request` and
`callback` are assigned. -/
def runMethodBody (kite : Kite) (auths : Authenticators) (method : String)
    (handlerFunc : HandlerFunc) (decoded : Except String callOptions)
    (cached : Option RemoteKite) (remoteAddr : String) :
    Locals × Option Raised × List Effect :=
  match decoded with
  | Except.error decodeMsg =>
    (⟨none, none, none⟩, some (Raised.argumentError decodeMsg), [])
  | Except.ok options =>
    let parsed := parseRequest kite method options cached remoteAddr
    let request := parsed.1.1
    let callback := parsed.1.2
    let authed := authStep kite auths request
    match authed.1 with
    | some kiteErr => (⟨none, some kiteErr, callback⟩, none, [])
    | none =>
      match handlerFunc authed.2 with
      | Outcome.panicked v =>
        (⟨none, none, callback⟩, some v, [Effect.handlerCalled authed.2])
      | Outcome.returned result (some err) =>
        (⟨result, none, callback⟩, some err, [Effect.handlerCalled authed.2])
      | Outcome.returned result none =>
        (⟨result, none, callback⟩, none, [Effect.handlerCalled authed.2])

/-- The closure of `recoverError` as a deferred call: after a panic it logs
the warning `"Error in received message: " + kiteErr.Error()` with its own
`kiteErr`. -/
def recoverEffects (kiteErr : Option Error) (r : Option Raised) : List Effect :=
  match r, recoverError kiteErr r with
  | some _, some e => [Effect.logWarning ("Error in received message: " ++ e.Error)]
  | _, _ => []

/-- The deferred function that sends the response: nothing when `callback`
is nil, else one call of the callback with `result` and `kiteErr`. (The log of
an error returned by the callback is left out.) -/
def sendResponse (vars : Locals) : List Effect :=
  match vars.callback with
  | none => []
  | some fn => [Effect.callbackCalled fn ⟨vars.kiteErr, vars.result⟩]

/-- The function `runMethod`: its body, then the deferred calls in reverse
order of their `defer` statements. `defer kite.recoverError(kiteErr)()`
evaluates `kite.recoverError(kiteErr)` at the `defer` statement, where
`kiteErr` is nil, so the closure starts from `none`; the sender runs last and
reads the variables of `runMethod`. -/
def runMethod (kite : Kite) (auths : Authenticators) (method : String)
    (handlerFunc : HandlerFunc) (decoded : Except String callOptions)
    (cached : Option RemoteKite) (remoteAddr : String) : List Effect :=
  let body := runMethodBody kite auths method handlerFunc decoded cached remoteAddr
  body.2.2 ++ recoverEffects none body.2.1 ++ sendResponse body.1

/-! ## Library functions used by `kontrol.go` -/

/-- Go's `error` values as `kontrol.go` tells them apart: the package variable
`ErrNoKitesAvailable`, compared by identity, and any other error value, of
which only the message is used. -/
inductive GoError where
  | ErrNoKitesAvailable
  | other (msg : String)
deriving DecidableEq, Repr

/-- The method `Error()` of an error value;
`ErrNoKitesAvailable = errors.New("no kites availabile")`. -/
def GoError.Error : GoError → String
  | GoError.ErrNoKitesAvailable => "no kites availabile"
  | GoError.other msg => msg

/-- Index of the last byte `b` of `s` (`last` of package `net`), `none` for
Go's `-1`. -/
def last : List Char → Char → Option Nat
  | [], _ => none
  | c :: cs, b =>
    match last cs b with
    | some i => some (i + 1)
    | none => if c = b then some 0 else none

/-- Index of the first byte `b` of `s` (`bytealg.IndexByteString`), `none` for
Go's `-1`. -/
def IndexByteString : List Char → Char → Option Nat
  | [], _ => none
  | c :: cs, b => if c = b then some 0 else (IndexByteString cs b).map (fun i => i + 1)

/-- The results `(host, port, err)` of `net.SplitHostPort`. -/
structure HostPort where
  host : String
  port : String
  err : Option String
deriving DecidableEq, Repr

/-- The helper `addrErr` of `net.SplitHostPort`: empty host and port. -/
def addrErr (why : String) : HostPort := ⟨"", "", some why⟩

/-- Go's `net.SplitHostPort` (package `net` of the standard library, current
releases): the port starts after the last colon; a host in square brackets may
hold colons; every failure returns empty host and port. -/
def SplitHostPort (hostport : String) : HostPort :=
  let s := hostport.data
  match last s ':' with
  | none => addrErr "missing port in address"
  | some i =>
    let finish (host : List Char) (j k : Nat) : HostPort :=
      if (IndexByteString (s.drop j) '[').isSome then addrErr "unexpected '[' in address"
      else if (IndexByteString (s.drop k) ']').isSome then addrErr "unexpected ']' in address"
      else ⟨String.mk host, String.mk (s.drop (i + 1)), none⟩
    if s.head? = some '[' then
      match IndexByteString s ']' with
      | none => addrErr "missing ']' in address"
      | some e =>
        if e + 1 = s.length then addrErr "missing port in address"
        else if e + 1 = i then finish ((s.take e).drop 1) 1 (e + 1)
        else if s.get? (e + 1) = some ':' then addrErr "too many colons in address"
        else addrErr "missing port in address"
    else
      let host := s.take i
      if (IndexByteString host ':').isSome then addrErr "too many colons in address"
      else finish host 0 0

/-- Go's `net.JoinHostPort`: a host holding a colon is put in square
brackets. -/
def JoinHostPort (host port : String) : String :=
  if (IndexByteString host.data ':').isSome then "[" ++ host ++ "]:" ++ port
  else host ++ ":" ++ port

/-- One second as a `time.Duration`, in nanoseconds. -/
def Second : Int := 1000000000

/-- Largest `int64`, the largest `time.Duration`. -/
def maxDuration : Int := 2 ^ 63 - 1

/-- Smallest `int64`, the smallest `time.Duration`. -/
def minDuration : Int := -(2 ^ 63)

/-- The value an `int64` computation keeps of the exact result `x`
(two's complement, 64 bits). Go's `int` is taken to be 64 bits wide. -/
def wrapInt64 (x : Int) : Int := (x + 2 ^ 63) % 2 ^ 64 - 2 ^ 63

/-- The expression `time.Duration(ttl) * time.Second`. -/
def secondsToDuration (ttl : Int) : Int := wrapInt64 (wrapInt64 ttl * Second)

/-- Go's `Time.Add`, on instants in nanoseconds since the epoch. A `Time`
keeps its seconds in an `int64`, so adding an `int64` of nanoseconds to a
present-day instant stays in range. -/
def timeAdd (t d : Int) : Int := t + d

/-- Go's `Time.Sub`: the difference as a `Duration`, saturated at the largest
and smallest `Duration`. -/
def timeSub (t u : Int) : Int :=
  if t - u > maxDuration then maxDuration
  else if t - u < minDuration then minDuration
  else t - u

/-- Modelled from the spec: whether a credential with absolute expiry
`validUntil` is still valid at instant `t` (a credential without expiry always
is). The check itself is not among the sources. -/
def Authentication.validAt (a : Authentication) (t : Int) : Bool :=
  match a.validUntil with
  | none => true
  | some v => decide (t < v)

/-! ## `kontrol.go` -/

/-- A `sync.Once`. -/
structure Once where
  done : Bool
deriving DecidableEq, Repr

/-- The channel `ready`: nothing is ever sent on it, so only whether it has
been closed matters. -/
structure Chan where
  closed : Bool
deriving DecidableEq, Repr

/-- Go's `close(c)`; closing a closed channel panics (`none`). -/
def Chan.close (c : Chan) : Option Chan :=
  if c.closed then none else some ⟨true⟩

/-- The statement `<-c` on a channel nobody sends on: it returns once the
channel is closed; `none` means the receive is still blocked. -/
def Chan.recv (c : Chan) : Option Unit :=
  if c.closed then some () else none

/-- Go's `Once.Do(f)` for an `f` acting on a state `σ`: `f` runs only on the
first call; `none` when `f` panics. -/
def Once.Do {σ : Type} (o : Once) (f : σ → Option σ) (s : σ) : Option (Once × σ) :=
  if o.done then some (o, s) else (f s).map (fun s1 => (⟨true⟩, s1))

/-- The struct `Kontrol`, with the `sync.Once` that the `OnConnect` closure of
`NewKontrol` captures, and the local kite that its `RemoteKite` points to. -/
structure Kontrol where
  RemoteKite : RemoteKite
  localKite : Kite
  ready : Chan
  once : Once
deriving DecidableEq, Repr

/-- Modelled from the spec: `Kite.NewRemoteKite`, which builds the peer
connection for an identity and a credential. -/
def NewRemoteKite (k : protocol.Kite) (auth : Authentication) : RemoteKite :=
  ⟨k, auth⟩

/-- The method `Kite.NewKontrol`; `host` is the host of `kontrolURL`. -/
def NewKontrol (k : Kite) (host : String) : Kontrol :=
  { RemoteKite :=
      NewRemoteKite ⟨"kontrol", "", "", "", host⟩ ⟨"kodingKey", k.KodingKey, none⟩
    localKite := k
    ready := ⟨false⟩
    once := ⟨false⟩ }

/-- A notification of the transport to the handlers that `NewKontrol`
installs. -/
inductive Notification where
  | connect
  | disconnect
deriving DecidableEq, Repr

/-- The `OnConnect` handler of `NewKontrol`: `once.Do(func() { close(ready) })`;
`none` when it panics. -/
def Kontrol.onConnect (k : Kontrol) : Option Kontrol :=
  (k.once.Do Chan.close k.ready).map (fun p => { k with once := p.1, ready := p.2 })

/-- The `OnDisconnect` handler of `NewKontrol`: it only logs. -/
def Kontrol.onDisconnect (k : Kontrol) : Option Kontrol := some k

/-- Delivery of one notification. -/
def Kontrol.notify (k : Kontrol) : Notification → Option Kontrol
  | Notification.connect => k.onConnect
  | Notification.disconnect => k.onDisconnect

/-- Delivery of a sequence of notifications, oldest first. -/
def Kontrol.notifyAll (k : Kontrol) : List Notification → Option Kontrol
  | [] => some k
  | n :: ns => (k.notify n).bind (fun k1 => k1.notifyAll ns)

/-- An argument of a remote call: a query, an identity or a callback. -/
inductive Arg where
  | query (q : String)
  | kite (k : protocol.Kite)
  | callback
deriving DecidableEq, Repr

/-- The answer to `RemoteKite.Tell(method, args...)` followed by
`Unmarshal` into `α`: either step may fail. -/
abbrev Told (α : Type) := Except GoError (Except GoError α)

/-- The remote side, as seen through `RemoteKite.Tell` and `Unmarshal`. -/
abbrev Tell (α : Type) := String → List Arg → Told α

/-- The method `Kontrol.Register`: `none` while it is blocked on `<-k.ready`,
else the returned error and the client with its local kite as left by the
call. -/
def Kontrol.Register (k : Kontrol) (tell : Tell protocol.RegisterResult) :
    Option (Option GoError × Kontrol) :=
  match k.ready.recv with
  | none => none
  | some _ =>
    match tell "register" [] with
    | Except.error err => some (some err, k)
    | Except.ok (Except.error err) => some (some err, k)
    | Except.ok (Except.ok rr) =>
      if rr.Result = protocol.AllowKite then
        let kite1 : protocol.Kite := { k.localKite.Kite with Username := rr.Username }
        let hp := SplitHostPort kite1.Host
        let kite2 : protocol.Kite :=
          if hp.host = "" then { kite1 with Host := JoinHostPort rr.PublicIP hp.port }
          else kite1
        some (none, { k with localKite := { k.localKite with Kite := kite2 } })
      else if rr.Result = protocol.RejectKite then
        some (some (GoError.other "Kite rejected"), k)
      else
        some (some (GoError.other ("Invalid result: " ++ rr.Result)), k)

/-- The loop of `getKites` from index `tick` of the clock on: one reading of
`time.Now()` per entry. -/
def getKitesLoop (now : Nat → Int) : Nat → List protocol.KiteWithToken → List RemoteKite
  | _, [] => []
  | tick, kite :: rest =>
    let validUntil := timeAdd (now tick) (secondsToDuration kite.Token.TTL)
    NewRemoteKite kite.Kite ⟨"token", kite.Token.Key, some validUntil⟩ ::
      getKitesLoop now (tick + 1) rest

/-- The method `Kontrol.getKites`: `none` while blocked on `<-k.ready`, else
its two results (nil slice as `[]`) and the number of clock readings made so
far. `now n` is what the `n`-th call of `time.Now()` returns. -/
def Kontrol.getKites (k : Kontrol) (now : Nat → Int) (tick : Nat)
    (tell : Tell (List protocol.KiteWithToken)) (args : List Arg) :
    Option ((List kite.RemoteKite × Option GoError) × Nat) :=
  match k.ready.recv with
  | none => none
  | some _ =>
    match tell "getKites" args with
    | Except.error err => some (([], some err), tick)
    | Except.ok (Except.error err) => some (([], some err), tick)
    | Except.ok (Except.ok kites) =>
      if kites.length = 0 then some (([], some GoError.ErrNoKitesAvailable), tick)
      else some ((getKitesLoop now tick kites, none), tick + kites.length)

/-- The method `Kontrol.GetKites`. -/
def Kontrol.GetKites (k : Kontrol) (now : Nat → Int) (tick : Nat)
    (tell : Tell (List protocol.KiteWithToken)) (query : String) :
    Option ((List kite.RemoteKite × Option GoError) × Nat) :=
  k.getKites now tick tell [Arg.query query]

/-- The expression `validUntil.Sub(now) / time.Second` converted to `int`
(`*validUntil` of a credential without expiry is a nil dereference: `none`). -/
def remainingTTL (a : Authentication) (now : Int) : Option Int :=
  a.validUntil.map (fun v => Int.tdiv (timeSub v now) Second)

/-- The loop of `WatchKites` over the snapshot: the events handed to
`onEvent`, oldest first; `none` when building an event panics. -/
def watchLoop (now : Nat → Int) : Nat → List RemoteKite → Option (List protocol.KiteEvent)
  | _, [] => some []
  | tick, remoteKite :: rest =>
    match remainingTTL remoteKite.Authentication (now tick) with
    | none => none
    | some ttl =>
      (watchLoop now (tick + 1) rest).map (fun evs =>
        ⟨protocol.KiteAction.Register, remoteKite.Kite,
          some ⟨remoteKite.Authentication.Key, ttl⟩⟩ :: evs)

/-- What a call of `WatchKites` does by itself: the returned error and the
events it handed to `onEvent`, oldest first. -/
structure Watched where
  err : Option GoError
  events : List protocol.KiteEvent
deriving DecidableEq, Repr

/-- The method `Kontrol.WatchKites`: `none` while blocked on `<-k.ready` (or
if it panicked). Events pushed later by the directory through the callback
argument are not part of the call itself. -/
def Kontrol.WatchKites (k : Kontrol) (now : Nat → Int) (tick : Nat)
    (tell : Tell (List protocol.KiteWithToken)) (query : String) : Option Watched :=
  match k.ready.recv with
  | none => none
  | some _ =>
    match k.getKites now tick tell [Arg.query query, Arg.callback] with
    | none => none
    | some ((remoteKites, err), tick1) =>
      if err ≠ none ∧ err ≠ some GoError.ErrNoKitesAvailable then
        some ⟨err, []⟩
      else
        (watchLoop now tick1 remoteKites).map (fun evs => ⟨none, evs⟩)

/-- The method `Kontrol.GetToken`. -/
def Kontrol.GetToken (k : Kontrol) (tell : Tell (Option protocol.Token))
    (kite : protocol.Kite) : Option (Option protocol.Token × Option GoError) :=
  match k.ready.recv with
  | none => none
  | some _ =>
    match tell "getToken" [Arg.kite kite] with
    | Except.error err => some (none, some err)
    | Except.ok (Except.error err) => some (none, some err)
    | Except.ok (Except.ok tkn) => some (tkn, none)

/-! ## Concrete inputs -/

/-- A local kite of user `alice` that listens on port 61001 and has left its
host empty. -/
def localKite : Kite :=
  { Kite := ⟨"math", "alice", "id-1", "1.0.0", ":61001"⟩
    KodingKey := "secret"
    disableAuthenticate := false }

/-- The authenticators that a kite registers: `"kodingKey"` is bound to its
own `AuthenticateFromKodingKey`. Token authentication needs the decryption of
package `token` and is not modelled, so `"token"` is left unbound here. -/
def defaultAuthenticators (k : Kite) : Authenticators := fun t =>
  if t = "kodingKey" then some k.AuthenticateFromKodingKey else none

/-- A call whose caller presents the shared key, carries no username, and
asks for a response on callback 7. -/
def kontrolCall : callOptions :=
  { Kite := ⟨"kontrol", "", "id-2", "1.0.0", "10.0.0.1:4000"⟩
    Authentication := ⟨"kodingKey", "secret", none⟩
    WithArgs := "[]"
    ResponseCallback := some 7 }

/-- A call with a credential of an unregistered type. -/
def strangerCall : callOptions :=
  { Kite := ⟨"stranger", "mallory", "id-3", "1.0.0", "10.0.0.2:4000"⟩
    Authentication := ⟨"password", "guess", none⟩
    WithArgs := "[]"
    ResponseCallback := some 9 }

/-- A handler that raises the plain string `boom`. -/
def raisingHandler : HandlerFunc := fun _ => Outcome.panicked (Raised.other "boom")

/-- A handler that returns the result `half answer` together with the
error `disk full`. -/
def failingHandler : HandlerFunc := fun _ =>
  Outcome.returned (some "half answer") (some (Raised.error "disk full"))

/-- A handler that returns the result `pong` and no error. -/
def pongHandler : HandlerFunc := fun _ => Outcome.returned (some "pong") none

/-- The readiness gate (whether `ready` is closed) before the first
notification and after each one of `ns`; the list stops where a handler
panics. -/
def Kontrol.gateTrace (k : Kontrol) : List Notification → List Bool
  | [] => [k.ready.closed]
  | n :: ns =>
    k.ready.closed ::
      (match k.notify n with
       | none => []
       | some k1 => k1.gateTrace ns)

/-- Number of places where a list of gate values goes from unset to set. -/
def risingEdges : List Bool → Nat
  | a :: b :: rest => (if a = false ∧ b = true then 1 else 0) + risingEdges (b :: rest)
  | _ => 0

/-- A port string as `net.SplitHostPort` accepts it after an empty host: no
colon and no square bracket. -/
def plainPort (port : String) : Prop :=
  ':' ∉ port.data ∧ '[' ∉ port.data ∧ ']' ∉ port.data

instance (port : String) : Decidable (plainPort port) := by
  unfold plainPort
  infer_instance

/-- The Kontrol client of `localKite` after its first connect. -/
def connectedKontrol : Kontrol :=
  { NewKontrol localKite "kontrol.example:4000" with ready := ⟨true⟩, once := ⟨true⟩ }

/-- The Kontrol client of a kite whose endpoint is the host name
`example.com`, without a port, after its first connect. -/
def portlessKontrol : Kontrol :=
  { connectedKontrol with
    localKite := { localKite with Kite := { localKite.Kite with Host := "example.com" } } }

/-- A directory that allows the registration, as user `bob` seen from
`1.2.3.4`. -/
def tellAllow : Tell protocol.RegisterResult := fun _ _ =>
  Except.ok (Except.ok ⟨"AllowKite", "bob", "1.2.3.4"⟩)

/-- A directory that rejects the registration. -/
def tellReject : Tell protocol.RegisterResult := fun _ _ =>
  Except.ok (Except.ok ⟨"RejectKite", "bob", "1.2.3.4"⟩)

/-- A directory with two matching peers, whose tokens live 60 and 120
seconds. -/
def tellTwoPeers : Tell (List protocol.KiteWithToken) := fun _ _ =>
  Except.ok (Except.ok
    [⟨⟨"fs", "bob", "id-4", "1.0.0", "10.0.0.4:4000"⟩, ⟨"key-4", 60⟩⟩,
     ⟨⟨"fs", "carol", "id-5", "1.0.0", "10.0.0.5:4000"⟩, ⟨"key-5", 120⟩⟩])

/-- A directory with one matching peer, whose token lives 9223372037
seconds. -/
def tellLongLived : Tell (List protocol.KiteWithToken) := fun _ _ =>
  Except.ok (Except.ok [⟨⟨"fs", "bob", "id-4", "1.0.0", "10.0.0.4:4000"⟩, ⟨"key-4", 9223372037⟩⟩])

/-- A clock that stands at 1400000000 seconds after the epoch. -/
def frozenClock : Nat → Int := fun _ => 1400000000 * Second

end kite

namespace kite

/-! ## Dispatch: `runMethod` and `recoverError` -/

/-- The conversion order of `recoverError`, on the closure's own variable: a
structured error is kept, an argument fault becomes `argumentError`, any other
error or value becomes `genericError` with its message or string form. -/
theorem recoverError_conversion (kiteErr : Option Error) (e : Error) (msg : String) :
    recoverError kiteErr (some (Raised.kiteError e)) = some e ∧
    recoverError kiteErr (some (Raised.argumentError msg)) = some ⟨"argumentError", msg⟩ ∧
    recoverError kiteErr (some (Raised.error msg)) = some ⟨"genericError", msg⟩ ∧
    recoverError kiteErr (some (Raised.other msg)) = some ⟨"genericError", msg⟩ ∧
    recoverError kiteErr none = kiteErr := by
  simp [recoverError]

/-- The two ways the body of `runMethod` ends once the argument is decoded:
authentication fails and nothing else happens, or the handler is called and
`kiteErr` is still nil. -/
theorem runMethodBody_ok (kite : Kite) (auths : Authenticators)
    (method : String) (handlerFunc : HandlerFunc) (options : callOptions)
    (cached : Option RemoteKite) (remoteAddr : String) :
    (∃ e, (authStep kite auths (parseRequest kite method options cached remoteAddr).1.1).1
          = some e ∧
        runMethodBody kite auths method handlerFunc (Except.ok options) cached remoteAddr =
          (⟨none, some e, options.ResponseCallback⟩, none, [])) ∨
    ((authStep kite auths (parseRequest kite method options cached remoteAddr).1.1).1 = none ∧
      ∃ result raised,
        runMethodBody kite auths method handlerFunc (Except.ok options) cached remoteAddr =
          (⟨result, none, options.ResponseCallback⟩, raised,
            [Effect.handlerCalled
              (authStep kite auths (parseRequest kite method options cached remoteAddr).1.1).2])) := by
  have hcb : (parseRequest kite method options cached remoteAddr).1.2
      = options.ResponseCallback := rfl
  simp only [runMethodBody, hcb]
  generalize authStep kite auths (parseRequest kite method options cached remoteAddr).1.1 = authed
  rcases authed with ⟨err, r1⟩
  cases err with
  | some e => exact Or.inl ⟨e, rfl, rfl⟩
  | none =>
    refine Or.inr ⟨rfl, ?_⟩
    cases hh : handlerFunc r1 with
    | panicked v => exact ⟨none, some v, by simp [hh]⟩
    | returned result err =>
      cases err with
      | some e => exact ⟨result, some e, by simp [hh]⟩
      | none => exact ⟨result, none, by simp [hh]⟩

/-- The closure of `recoverError` never calls the callback or the handler. -/
theorem recoverEffects_only_logs (kiteErr : Option Error) (r : Option Raised) (x : Effect)
    (hx : x ∈ recoverEffects kiteErr r) : ∃ msg, x = Effect.logWarning msg := by
  unfold recoverEffects at hx
  split at hx
  · simp at hx
    exact ⟨_, hx⟩
  · simp at hx

/-- Whatever the handler does once it is reached, the response callback gets
a nil error: the variable `kiteErr` of `runMethod` is written only by the
authentication step. -/
theorem runMethod_response_after_handler (kite : Kite) (auths : Authenticators)
    (method : String) (handlerFunc : HandlerFunc) (options : callOptions)
    (cached : Option RemoteKite) (remoteAddr : String) (r : Request)
    (fn : Nat) (arg : callbackArg)
    (hcalled : Effect.handlerCalled r ∈
      runMethod kite auths method handlerFunc (Except.ok options) cached remoteAddr)
    (hsent : Effect.callbackCalled fn arg ∈
      runMethod kite auths method handlerFunc (Except.ok options) cached remoteAddr) :
    arg.Error = none := by
  rcases runMethodBody_ok kite auths method handlerFunc options cached remoteAddr with
    ⟨e, -, hb⟩ | ⟨-, result, raised, hb⟩
  · simp only [runMethod, hb, List.nil_append, List.mem_append] at hcalled
    rcases hcalled with h | h
    · obtain ⟨msg, hm⟩ := recoverEffects_only_logs _ _ _ h
      cases hm
    · unfold sendResponse at h
      split at h <;> simp at h
  · simp only [runMethod, hb, List.mem_append, List.mem_singleton] at hsent
    rcases hsent with (h | h) | h
    · cases h
    · obtain ⟨msg, hm⟩ := recoverEffects_only_logs _ _ _ h
      cases hm
    · unfold sendResponse at h
      split at h
      · simp at h
      · simp only [List.mem_singleton, Effect.callbackCalled.injEq] at h
        rw [h.2]

/-- C1, on the code: on an incoming connection that passes authentication,
with response callback 7, a handler that raises the plain string `boom` makes
`runMethod` log the converted error and call the callback with a nil error and
a nil result, and a handler that returns the error `disk full` makes it call
the callback with a nil error as well; no `genericError` is delivered. -/
theorem runMethod_raised_string_delivers_nil_error :
    runMethod localKite (defaultAuthenticators localKite) "ping" raisingHandler
        (Except.ok kontrolCall) none "10.0.0.1:5555" =
      [Effect.handlerCalled
        ((parseRequest localKite "ping" kontrolCall none "10.0.0.1:5555").1.1.authenticate
          (defaultAuthenticators localKite)).2,
       Effect.logWarning "Error in received message: Kite error: genericError: boom",
       Effect.callbackCalled 7 ⟨none, none⟩] ∧
    runMethod localKite (defaultAuthenticators localKite) "ping" failingHandler
        (Except.ok kontrolCall) none "10.0.0.1:5555" =
      [Effect.handlerCalled
        ((parseRequest localKite "ping" kontrolCall none "10.0.0.1:5555").1.1.authenticate
          (defaultAuthenticators localKite)).2,
       Effect.logWarning "Error in received message: Kite error: genericError: disk full",
       Effect.callbackCalled 7 ⟨none, some "half answer"⟩] := by
  decide

/-! ## `Request.authenticate` -/

/-- C2, on the code: a request built by `parseRequest` from a peer without
username, on an incoming connection, presenting the local Koding key to a kite
of user `alice` whose `"kodingKey"` authenticator is its own
`AuthenticateFromKodingKey`. The authenticator adopts `alice`, `authenticate`
succeeds, and the peer connection's username is empty afterwards, not
`alice`. -/
theorem authenticate_kodingKey_drops_adopted_username :
    (parseRequest localKite "ping" kontrolCall none "10.0.0.1:5555").1.1.RemoteAddr ≠ "" ∧
    (parseRequest localKite "ping" kontrolCall none "10.0.0.1:5555").1.1.Authentication.Key
      = localKite.KodingKey ∧
    (parseRequest localKite "ping" kontrolCall none "10.0.0.1:5555").1.1.RemoteKite.Kite.Username
      = "" ∧
    localKite.Kite.Username = "alice" ∧
    defaultAuthenticators localKite
        (parseRequest localKite "ping" kontrolCall none "10.0.0.1:5555").1.1.Authentication.Type_
      = some localKite.AuthenticateFromKodingKey ∧
    (localKite.AuthenticateFromKodingKey
        (parseRequest localKite "ping" kontrolCall none "10.0.0.1:5555").1.1).2.RemoteKite.Kite.Username
      = "alice" ∧
    ((parseRequest localKite "ping" kontrolCall none "10.0.0.1:5555").1.1.authenticate
        (defaultAuthenticators localKite)).1 = none ∧
    ((parseRequest localKite "ping" kontrolCall none "10.0.0.1:5555").1.1.authenticate
        (defaultAuthenticators localKite)).2.RemoteKite.Kite.Username = "" := by
  refine ⟨by decide, by decide, by decide, by decide, rfl, by decide, by decide, by decide⟩

/-- After a successful authentication on an incoming connection the peer
connection's username is the `Username` of the request as the authenticator
left it. -/
theorem authenticate_forces_request_username (auths : Authenticators) (r r1 : Request)
    (haddr : r.RemoteAddr ≠ "") (hok : r.authenticate auths = (none, r1)) :
    r1.RemoteKite.Kite.Username = r1.Username := by
  unfold Request.authenticate at hok
  rw [if_neg haddr] at hok
  split at hok
  · simp at hok
  · split at hok
    · simp at hok
    · simp only [Prod.mk.injEq, true_and] at hok
      subst hok
      rfl

/-- C3: `authenticate` bypasses the checks exactly when `RemoteAddr` is
empty. With an empty address it returns no error and the request unchanged
for every table of authenticators and every credential. With a non-empty
address the table is read at `Authentication.Type`: no entry gives
`authenticationError` naming the type, a failing authenticator gives
`authenticationError` with its message, and only an accepting authenticator
gives success. -/
theorem authenticate_bypass_iff (r : Request) :
    ((∀ auths : Authenticators, r.authenticate auths = (none, r)) ↔ r.RemoteAddr = "") ∧
    (r.RemoteAddr ≠ "" → ∀ auths : Authenticators,
      (auths r.Authentication.Type_ = none →
        r.authenticate auths =
          (some ⟨"authenticationError",
            "Unknown authentication type: " ++ r.Authentication.Type_⟩, r)) ∧
      (∀ (f : Authenticator) (msg : String) (r1 : Request),
        auths r.Authentication.Type_ = some f → f r = (some msg, r1) →
        r.authenticate auths = (some ⟨"authenticationError", msg⟩, r1)) ∧
      (∀ (f : Authenticator) (r1 : Request),
        auths r.Authentication.Type_ = some f → f r = (none, r1) →
        (r.authenticate auths).1 = none) ∧
      ((r.authenticate auths).1 = none →
        ∃ (f : Authenticator) (r1 : Request),
          auths r.Authentication.Type_ = some f ∧ f r = (none, r1))) := by
  refine ⟨⟨fun h => ?_, fun h auths => ?_⟩, fun haddr auths => ⟨?_, ?_, ?_, ?_⟩⟩
  · by_contra hne
    have h0 := h (fun _ => none)
    simp [Request.authenticate, hne] at h0
  · simp [Request.authenticate, h]
  · intro hnone
    simp [Request.authenticate, haddr, hnone]
  · intro f msg r1 hf hfr
    simp [Request.authenticate, haddr, hf, hfr]
  · intro f r1 hf hfr
    simp [Request.authenticate, haddr, hf, hfr]
  · intro hok
    unfold Request.authenticate at hok
    rw [if_neg haddr] at hok
    split at hok
    · simp at hok
    · rename_i f hf
      split at hok
      · simp at hok
      · rename_i r1 hfr
        exact ⟨f, r1, hf, hfr⟩

/-- Witness of C3 on an incoming call with an unregistered credential type and
on the same call over a connection dialled by the local kite. -/
theorem authenticate_bypass_iff_witness :
    (parseRequest localKite "ping" strangerCall none "10.0.0.2:5555").1.1.authenticate
        (defaultAuthenticators localKite) =
      (some ⟨"authenticationError", "Unknown authentication type: password"⟩,
        (parseRequest localKite "ping" strangerCall none "10.0.0.2:5555").1.1) ∧
    (parseRequest localKite "ping" strangerCall none "").1.1.authenticate
        (defaultAuthenticators localKite) =
      (none, (parseRequest localKite "ping" strangerCall none "").1.1) :=
  ⟨((authenticate_bypass_iff
      (parseRequest localKite "ping" strangerCall none "10.0.0.2:5555").1.1).2
      (by decide) (defaultAuthenticators localKite)).1 rfl,
   (authenticate_bypass_iff
      (parseRequest localKite "ping" strangerCall none "").1.1).1.2 (by decide)
      (defaultAuthenticators localKite)⟩

/-- C4: with authentication enabled, a failing `authenticate` means that the
handler is not called and that the response callback, if one was supplied, is
called exactly once, with the authentication error and a nil result. The
handler is called only when authentication is disabled or `authenticate` has
returned success (and then with the request as `authenticate` left it); a
call whose argument does not decode never reaches the handler. -/
theorem runMethod_auth_failure_skips_handler (kite : Kite) (auths : Authenticators)
    (method : String) (handlerFunc : HandlerFunc) (options : callOptions)
    (cached : Option RemoteKite) (remoteAddr : String) :
    (∀ e, kite.disableAuthenticate = false →
      ((parseRequest kite method options cached remoteAddr).1.1.authenticate auths).1 = some e →
      (∀ r, Effect.handlerCalled r ∉
        runMethod kite auths method handlerFunc (Except.ok options) cached remoteAddr) ∧
      runMethod kite auths method handlerFunc (Except.ok options) cached remoteAddr =
        match options.ResponseCallback with
        | none => []
        | some fn => [Effect.callbackCalled fn ⟨some e, none⟩]) ∧
    (∀ r, Effect.handlerCalled r ∈
        runMethod kite auths method handlerFunc (Except.ok options) cached remoteAddr →
      (kite.disableAuthenticate = true ∧
        r = (parseRequest kite method options cached remoteAddr).1.1) ∨
      (kite.disableAuthenticate = false ∧
        (parseRequest kite method options cached remoteAddr).1.1.authenticate auths = (none, r))) ∧
    (∀ msg r, Effect.handlerCalled r ∉
        runMethod kite auths method handlerFunc (Except.error msg) cached remoteAddr) := by
  refine ⟨fun e hen hauth => ?_, fun r hr => ?_, fun msg r hr => ?_⟩
  · have hstep : (authStep kite auths (parseRequest kite method options cached remoteAddr).1.1).1
        = some e := by
      simp [authStep, hen, hauth]
    rcases runMethodBody_ok kite auths method handlerFunc options cached remoteAddr with
      ⟨e1, he1, hb⟩ | ⟨hnone, -⟩
    · rw [hstep] at he1
      cases he1
      have hrun : runMethod kite auths method handlerFunc (Except.ok options) cached remoteAddr =
          match options.ResponseCallback with
          | none => []
          | some fn => [Effect.callbackCalled fn ⟨some e, none⟩] := by
        simp only [runMethod, hb, recoverEffects, sendResponse, List.nil_append]
      refine ⟨fun r hr => ?_, hrun⟩
      rw [hrun] at hr
      split at hr <;> simp at hr
    · rw [hstep] at hnone
      cases hnone
  · rcases runMethodBody_ok kite auths method handlerFunc options cached remoteAddr with
      ⟨e, -, hb⟩ | ⟨hnone, result, raised, hb⟩
    · simp only [runMethod, hb, List.nil_append, List.mem_append] at hr
      rcases hr with h | h
      · obtain ⟨m, hm⟩ := recoverEffects_only_logs _ _ _ h
        cases hm
      · unfold sendResponse at h
        split at h <;> simp at h
    · simp only [runMethod, hb, List.mem_append, List.mem_singleton] at hr
      rcases hr with (h | h) | h
      · simp only [Effect.handlerCalled.injEq] at h
        cases hd : kite.disableAuthenticate with
        | true =>
          left
          refine ⟨rfl, ?_⟩
          rw [h]
          simp [authStep, hd]
        | false =>
          right
          refine ⟨rfl, ?_⟩
          have h1 : authStep kite auths (parseRequest kite method options cached remoteAddr).1.1
              = (parseRequest kite method options cached remoteAddr).1.1.authenticate auths := by
            simp [authStep, hd]
          rw [h1] at hnone h
          rw [h]
          exact Prod.ext hnone rfl
      · obtain ⟨m, hm⟩ := recoverEffects_only_logs _ _ _ h
        cases hm
      · unfold sendResponse at h
        split at h <;> simp at h
  · simp [runMethod, runMethodBody, recoverEffects, recoverError, sendResponse] at hr

/-- Witness of C4: a call with a credential of an unregistered type and
callback 9 gets one response, the authentication error, and the handler is
not called. -/
theorem runMethod_auth_failure_skips_handler_witness :
    (∀ r, Effect.handlerCalled r ∉
      runMethod localKite (defaultAuthenticators localKite) "ping" pongHandler
        (Except.ok strangerCall) none "10.0.0.2:5555") ∧
    runMethod localKite (defaultAuthenticators localKite) "ping" pongHandler
        (Except.ok strangerCall) none "10.0.0.2:5555" =
      [Effect.callbackCalled 9
        ⟨some ⟨"authenticationError", "Unknown authentication type: password"⟩, none⟩] :=
  (runMethod_auth_failure_skips_handler localKite (defaultAuthenticators localKite) "ping"
    pongHandler strangerCall none "10.0.0.2:5555").1
    ⟨"authenticationError", "Unknown authentication type: password"⟩ (by decide) (by decide)

end kite

namespace kite

/-! ## `Kontrol.Register` -/

/-- A byte that does not occur has no last index. -/
theorem last_eq_none_of_not_mem (b : Char) (cs : List Char) (h : b ∉ cs) :
    last cs b = none := by
  induction cs with
  | nil => rfl
  | cons c cs ih =>
    simp only [List.mem_cons, not_or] at h
    have hcb : ¬ c = b := fun hc => h.1 hc.symm
    simp [last, ih h.2, hcb]

/-- A byte that does not occur has no first index. -/
theorem IndexByteString_eq_none_of_not_mem (b : Char) (cs : List Char) (h : b ∉ cs) :
    IndexByteString cs b = none := by
  induction cs with
  | nil => rfl
  | cons c cs ih =>
    simp only [List.mem_cons, not_or] at h
    have hcb : ¬ c = b := fun hc => h.1 hc.symm
    simp [IndexByteString, ih h.2, hcb]

/-- An endpoint made of a colon and a plain port splits into the empty host
and that port. -/
theorem SplitHostPort_empty_host (port : String) (hp : plainPort port) :
    SplitHostPort (":" ++ port) = ⟨"", port, none⟩ := by
  obtain ⟨h1, h2, h3⟩ := hp
  have hdata : (":" ++ port).data = ':' :: port.data := rfl
  have hl : last (':' :: port.data) ':' = some 0 := by
    simp [last, last_eq_none_of_not_mem _ _ h1]
  have hhead : ¬ ((':' :: port.data).head? = some '[') := by
    simp
  unfold SplitHostPort
  simp only [hdata, hl]
  rw [if_neg hhead]
  simp [IndexByteString, IndexByteString_eq_none_of_not_mem _ _ h2,
    IndexByteString_eq_none_of_not_mem _ _ h3]

/-- C5: when the directory answers `AllowKite`, `Register` returns no error
and the local identity takes the returned username. If `net.SplitHostPort`
finds no host in the local endpoint, the endpoint becomes
`net.JoinHostPort(publicIP, port)` with the port it found; in particular an
endpoint `":" + port` with a plain port becomes the public IP joined with that
same port, which reads `publicIP + ":" + port` for an address without
colons. -/
theorem Register_allow (k : Kontrol) (tell : Tell protocol.RegisterResult)
    (rr : protocol.RegisterResult) (hready : k.ready.closed = true)
    (htell : tell "register" [] = Except.ok (Except.ok rr))
    (hallow : rr.Result = protocol.AllowKite) :
    ∃ k1, k.Register tell = some (none, k1) ∧
      k1.localKite.Kite.Username = rr.Username ∧
      ((SplitHostPort k.localKite.Kite.Host).host = "" →
        k1.localKite.Kite.Host =
          JoinHostPort rr.PublicIP (SplitHostPort k.localKite.Kite.Host).port) ∧
      (∀ port, plainPort port → k.localKite.Kite.Host = ":" ++ port →
        k1.localKite.Kite.Host = JoinHostPort rr.PublicIP port ∧
        (':' ∉ rr.PublicIP.data → k1.localKite.Kite.Host = rr.PublicIP ++ ":" ++ port)) := by
  have hreg : k.Register tell = some (none,
      { k with localKite := { k.localKite with Kite :=
        if (SplitHostPort k.localKite.Kite.Host).host = "" then
          { Name := k.localKite.Kite.Name
            Username := rr.Username
            ID := k.localKite.Kite.ID
            Version := k.localKite.Kite.Version
            Host := JoinHostPort rr.PublicIP (SplitHostPort k.localKite.Kite.Host).port }
        else { k.localKite.Kite with Username := rr.Username } } }) := by
    simp [Kontrol.Register, Chan.recv, hready, htell, hallow]
  refine ⟨_, hreg, ?_, ?_, ?_⟩
  · simp only
    split <;> rfl
  · intro hh
    simp [hh]
  · intro port hp hhost
    have hsplit := SplitHostPort_empty_host port hp
    rw [← hhost] at hsplit
    have hjoin : (if (SplitHostPort k.localKite.Kite.Host).host = "" then
          ({ Name := k.localKite.Kite.Name
             Username := rr.Username
             ID := k.localKite.Kite.ID
             Version := k.localKite.Kite.Version
             Host := JoinHostPort rr.PublicIP (SplitHostPort k.localKite.Kite.Host).port }
            : protocol.Kite)
        else { k.localKite.Kite with Username := rr.Username }).Host
        = JoinHostPort rr.PublicIP port := by
      simp [hsplit]
    refine ⟨hjoin, fun hip => ?_⟩
    simp only [hjoin]
    simp [JoinHostPort, IndexByteString_eq_none_of_not_mem _ _ hip]

/-- Witness of C5: the kite listening on `:61001`, allowed as `bob` seen from
`1.2.3.4`, ends with the endpoint `1.2.3.4:61001`. -/
theorem Register_allow_witness :
    ∃ k1, connectedKontrol.Register tellAllow = some (none, k1) ∧
      k1.localKite.Kite.Username = "bob" ∧
      k1.localKite.Kite.Host = "1.2.3.4:61001" := by
  obtain ⟨k1, h1, h2, -, h4⟩ :=
    Register_allow connectedKontrol tellAllow ⟨"AllowKite", "bob", "1.2.3.4"⟩
      (by decide) rfl (by decide)
  exact ⟨k1, h1, h2, ((h4 "61001" (by decide) (by decide)).2 (by decide)).trans (by decide)⟩

/-- C6: when the directory answers anything but `AllowKite`, `Register` fails,
with `Kite rejected` for `RejectKite` and `Invalid result: <value>` otherwise,
and the client with its local identity is what it was. `Register` returns
no error only for an answer `AllowKite`. -/
theorem Register_not_allowed (k : Kontrol) (tell : Tell protocol.RegisterResult)
    (hready : k.ready.closed = true) :
    (∀ rr, tell "register" [] = Except.ok (Except.ok rr) →
      rr.Result ≠ protocol.AllowKite →
      k.Register tell =
        some (some (GoError.other
          (if rr.Result = protocol.RejectKite then "Kite rejected"
           else "Invalid result: " ++ rr.Result)), k)) ∧
    (∀ k1, k.Register tell = some (none, k1) →
      ∃ rr, tell "register" [] = Except.ok (Except.ok rr) ∧
        rr.Result = protocol.AllowKite) := by
  constructor
  · intro rr htell hne
    by_cases hrej : rr.Result = protocol.RejectKite
    · have hra : ¬ protocol.RejectKite = protocol.AllowKite := by decide
      simp [Kontrol.Register, Chan.recv, hready, htell, hrej, hra]
    · simp [Kontrol.Register, Chan.recv, hready, htell, hne, hrej]
  · intro k1 hreg
    simp only [Kontrol.Register, Chan.recv, hready, if_true] at hreg
    split at hreg
    · simp at hreg
    · simp at hreg
    · rename_i rr htell
      refine ⟨rr, htell, ?_⟩
      by_contra hne
      rw [if_neg hne] at hreg
      split at hreg <;> simp at hreg

/-- Witness of C6: a rejected kite gets `Kite rejected` and keeps its
identity. -/
theorem Register_not_allowed_witness :
    connectedKontrol.Register tellReject =
      some (some (GoError.other "Kite rejected"), connectedKontrol) :=
  (Register_not_allowed connectedKontrol tellReject (by decide)).1
    ⟨"RejectKite", "bob", "1.2.3.4"⟩ rfl (by decide)

/-- C10, on the code: a kite whose endpoint is the host name `example.com`
without a port is allowed by the directory, seen from `1.2.3.4`.
`net.SplitHostPort` fails on the endpoint, its error is dropped, and
`Register` overwrites the endpoint with `1.2.3.4:`. -/
theorem Register_overwrites_portless_host :
    portlessKontrol.localKite.Kite.Host = "example.com" ∧
    SplitHostPort "example.com" = ⟨"", "", some "missing port in address"⟩ ∧
    (portlessKontrol.Register tellAllow).map (fun p => (p.1, p.2.localKite.Kite.Host)) =
      some (none, "1.2.3.4:") := by
  decide

/-- An endpoint with a non-empty host and a port is left alone by `Register`,
whatever the directory answers. -/
theorem Register_keeps_host_with_port (k : Kontrol) (tell : Tell protocol.RegisterResult)
    (res : Option GoError × Kontrol)
    (hhost : (SplitHostPort k.localKite.Kite.Host).host ≠ "")
    (hreg : k.Register tell = some res) :
    res.2.localKite.Kite.Host = k.localKite.Kite.Host := by
  unfold Kontrol.Register at hreg
  split at hreg
  · simp at hreg
  · split at hreg
    · simp at hreg; rw [← hreg]
    · simp at hreg; rw [← hreg]
    · split at hreg
      · simp only [Option.some.injEq] at hreg
        rw [← hreg, if_neg hhost]
      · split at hreg <;> (simp at hreg; rw [← hreg])

/-! ## `Kontrol.getKites` and `Kontrol.WatchKites` -/

/-- A TTL of at most 9223372036 seconds in absolute value fits a `Duration`:
the product with `time.Second` is exact. -/
theorem secondsToDuration_exact (ttl : Int) (hlo : -9223372036 ≤ ttl)
    (hhi : ttl ≤ 9223372036) : secondsToDuration ttl = ttl * Second := by
  unfold secondsToDuration wrapInt64 Second
  norm_num
  omega

/-- With a clock that stands still and TTLs that fit a `Duration`, the loop
of `getKites` maps each entry to a handle expiring TTL seconds later. -/
theorem getKitesLoop_frozen (now : Nat → Int) (t0 : Int) (hclock : ∀ n, now n = t0)
    (L : List protocol.KiteWithToken)
    (hrange : ∀ kt ∈ L, -9223372036 ≤ kt.Token.TTL ∧ kt.Token.TTL ≤ 9223372036)
    (tick : Nat) :
    getKitesLoop now tick L =
      L.map (fun kt => ⟨kt.Kite, ⟨"token", kt.Token.Key, some (t0 + kt.Token.TTL * Second)⟩⟩) := by
  induction L generalizing tick with
  | nil => rfl
  | cons kt rest ih =>
    have hkt := hrange kt (List.mem_cons_self _ _)
    have hrest : ∀ x ∈ rest, -9223372036 ≤ x.Token.TTL ∧ x.Token.TTL ≤ 9223372036 :=
      fun x hx => hrange x (List.mem_cons_of_mem _ hx)
    simp only [getKitesLoop, List.map_cons, ih hrest (tick + 1), hclock,
      secondsToDuration_exact _ hkt.1 hkt.2, timeAdd, NewRemoteKite]

/-- C7, as stated, fails on the code: a token with a TTL of 9223372037
seconds, received at 1400000000 seconds after the epoch, gives a handle whose
expiry lies before the time of receipt, so the credential is already invalid
one nanosecond before `t0 + TTL`. -/
theorem GetKites_expiry_overflow :
    connectedKontrol.GetKites frozenClock 0 tellLongLived "fs" =
      some (([⟨⟨"fs", "bob", "id-4", "1.0.0", "10.0.0.4:4000"⟩,
               ⟨"token", "key-4", some (-7823372036709551616)⟩⟩], none), 1) ∧
    (1400000000 * Second + 9223372037 * Second : Int) ≠ -7823372036709551616 ∧
    Authentication.validAt ⟨"token", "key-4", some (-7823372036709551616)⟩
      (1400000000 * Second + 9223372037 * Second - 1) = false := by
  decide

/-- C7, amended: for a decoded answer `L` received while the clock reads
`t0`, with every TTL between -9223372036 and 9223372036 seconds, `GetKites`
fails with `ErrNoKitesAvailable` when `L` is empty and otherwise returns, in
the order of `L`, one handle per entry with the entry's identity and a
`token` credential with the entry's key and expiry `t0 + TTL` seconds; that
credential is valid at every instant before the expiry and invalid at every
instant after it. -/
theorem GetKites_expiry (k : Kontrol) (now : Nat → Int) (tick : Nat)
    (tell : Tell (List protocol.KiteWithToken)) (query : String)
    (L : List protocol.KiteWithToken) (t0 : Int)
    (hready : k.ready.closed = true) (hclock : ∀ n, now n = t0)
    (htell : tell "getKites" [Arg.query query] = Except.ok (Except.ok L))
    (hrange : ∀ kt ∈ L, -9223372036 ≤ kt.Token.TTL ∧ kt.Token.TTL ≤ 9223372036) :
    (L = [] →
      k.GetKites now tick tell query = some (([], some GoError.ErrNoKitesAvailable), tick)) ∧
    (L ≠ [] →
      k.GetKites now tick tell query =
        some ((L.map (fun kt =>
          ⟨kt.Kite, ⟨"token", kt.Token.Key, some (t0 + kt.Token.TTL * Second)⟩⟩), none),
          tick + L.length)) ∧
    (∀ kt ∈ L, ∀ ε : Int, 0 < ε →
      Authentication.validAt ⟨"token", kt.Token.Key, some (t0 + kt.Token.TTL * Second)⟩
        (t0 + kt.Token.TTL * Second - ε) = true ∧
      Authentication.validAt ⟨"token", kt.Token.Key, some (t0 + kt.Token.TTL * Second)⟩
        (t0 + kt.Token.TTL * Second + ε) = false) := by
  refine ⟨fun hnil => ?_, fun hne => ?_, fun kt _ ε hε => ?_⟩
  · subst hnil
    simp [Kontrol.GetKites, Kontrol.getKites, Chan.recv, hready, htell]
  · have hlen : ¬ L.length = 0 := fun h => hne (List.length_eq_zero.mp h)
    simp only [Kontrol.GetKites, Kontrol.getKites, Chan.recv, hready, htell, if_true,
      if_neg hlen, getKitesLoop_frozen now t0 hclock L hrange tick]
  · simp only [Authentication.validAt, decide_eq_true_eq, decide_eq_false_iff_not]
    constructor <;> omega

/-- Witness of C7 amended: two peers with tokens of 60 and 120 seconds. -/
theorem GetKites_expiry_witness :
    connectedKontrol.GetKites frozenClock 0 tellTwoPeers "fs" =
      some (([⟨⟨"fs", "bob", "id-4", "1.0.0", "10.0.0.4:4000"⟩,
               ⟨"token", "key-4", some (1400000000 * Second + 60 * Second)⟩⟩,
              ⟨⟨"fs", "carol", "id-5", "1.0.0", "10.0.0.5:4000"⟩,
               ⟨"token", "key-5", some (1400000000 * Second + 120 * Second)⟩⟩], none), 2) :=
  (GetKites_expiry connectedKontrol frozenClock 0 tellTwoPeers "fs"
    [⟨⟨"fs", "bob", "id-4", "1.0.0", "10.0.0.4:4000"⟩, ⟨"key-4", 60⟩⟩,
     ⟨⟨"fs", "carol", "id-5", "1.0.0", "10.0.0.5:4000"⟩, ⟨"key-5", 120⟩⟩]
    (1400000000 * Second) (by decide) (fun _ => rfl) rfl (by decide)).2.1 (by decide)

/-- The loop of `WatchKites` over the handles that the loop of `getKites`
built never panics and hands over one event per entry, in order, with action
`Register`, the identity of the entry and the key of its token. -/
theorem watchLoop_getKitesLoop (now : Nat → Int) (L : List protocol.KiteWithToken)
    (tick tick1 : Nat) :
    ∃ evs, watchLoop now tick1 (getKitesLoop now tick L) = some evs ∧
      evs.map (fun e => (e.Action, e.Kite, e.Token.map (fun t => t.Key))) =
        L.map (fun kt => (protocol.KiteAction.Register, kt.Kite, some kt.Token.Key)) := by
  induction L generalizing tick tick1 with
  | nil => exact ⟨[], rfl, rfl⟩
  | cons kt rest ih =>
    obtain ⟨evs, h1, h2⟩ := ih (tick + 1) (tick1 + 1)
    refine ⟨⟨protocol.KiteAction.Register, kt.Kite, some ⟨kt.Token.Key,
      Int.tdiv (timeSub (timeAdd (now tick) (secondsToDuration kt.Token.TTL)) (now tick1))
        Second⟩⟩ :: evs, ?_, ?_⟩
    · simp only [getKitesLoop, watchLoop, NewRemoteKite, remainingTTL, Option.map_some', h1]
    · simp [h2]

/-- C8: once the gate is set, `WatchKites` on a snapshot `L` hands to
`onEvent` exactly one event per peer of `L`, in the order of `L`, each with
action `Register`, the peer's identity and a token with the peer's key, and
returns no error; for the empty snapshot that is no event and no error. A
failure of the snapshot call other than `ErrNoKitesAvailable` is returned and
no event is handed over. -/
theorem WatchKites_snapshot (k : Kontrol) (now : Nat → Int) (tick : Nat)
    (tell : Tell (List protocol.KiteWithToken)) (query : String)
    (hready : k.ready.closed = true) :
    (∀ L, tell "getKites" [Arg.query query, Arg.callback] = Except.ok (Except.ok L) →
      ∃ evs, k.WatchKites now tick tell query = some ⟨none, evs⟩ ∧
        evs.length = L.length ∧
        evs.map (fun e => (e.Action, e.Kite, e.Token.map (fun t => t.Key))) =
          L.map (fun kt => (protocol.KiteAction.Register, kt.Kite, some kt.Token.Key))) ∧
    (∀ err, err ≠ GoError.ErrNoKitesAvailable →
      (tell "getKites" [Arg.query query, Arg.callback] = Except.error err ∨
        tell "getKites" [Arg.query query, Arg.callback] = Except.ok (Except.error err)) →
      k.WatchKites now tick tell query = some ⟨some err, []⟩) := by
  constructor
  · intro L htell
    cases L with
    | nil =>
      refine ⟨[], ?_, rfl, rfl⟩
      simp [Kontrol.WatchKites, Kontrol.getKites, Chan.recv, hready, htell, watchLoop]
    | cons kt rest =>
      obtain ⟨evs, h1, h2⟩ := watchLoop_getKitesLoop now (kt :: rest) tick (tick + (kt :: rest).length)
      refine ⟨evs, ?_, ?_, h2⟩
      · simp only [Kontrol.WatchKites, Kontrol.getKites, Chan.recv, hready, htell, if_true]
        simp only [List.length_cons, Nat.add_one_ne_zero, if_false]
        have hcond : ¬ ((none : Option GoError) ≠ none ∧
            (none : Option GoError) ≠ some GoError.ErrNoKitesAvailable) := by simp
        rw [if_neg hcond]
        have h1b : watchLoop now (tick + (rest.length + 1)) (getKitesLoop now tick (kt :: rest))
            = some evs := h1
        rw [h1b]
        rfl
      · have := congrArg List.length h2
        simpa using this
  · intro err hne htell
    rcases htell with htell | htell <;>
      simp [Kontrol.WatchKites, Kontrol.getKites, Chan.recv, hready, htell, hne]

/-- Witness of C8: a snapshot of two peers gives two `Register` events in the
order of the snapshot, with the remaining lifetimes of the tokens. -/
theorem WatchKites_snapshot_witness :
    ∃ evs, connectedKontrol.WatchKites frozenClock 0 tellTwoPeers "fs" = some ⟨none, evs⟩ ∧
      evs.length = 2 ∧
      evs.map (fun e => (e.Action, e.Kite, e.Token.map (fun t => t.Key))) =
        [(protocol.KiteAction.Register, ⟨"fs", "bob", "id-4", "1.0.0", "10.0.0.4:4000"⟩,
            some "key-4"),
         (protocol.KiteAction.Register, ⟨"fs", "carol", "id-5", "1.0.0", "10.0.0.5:4000"⟩,
            some "key-5")] :=
  (WatchKites_snapshot connectedKontrol frozenClock 0 tellTwoPeers "fs" (by decide)).1
    [⟨⟨"fs", "bob", "id-4", "1.0.0", "10.0.0.4:4000"⟩, ⟨"key-4", 60⟩⟩,
     ⟨⟨"fs", "carol", "id-5", "1.0.0", "10.0.0.5:4000"⟩, ⟨"key-5", 120⟩⟩] rfl

/-! ## The readiness gate -/

/-- `Register` has passed the gate exactly when `ready` is closed. -/
theorem Register_isSome (k : Kontrol) (tell : Tell protocol.RegisterResult) :
    (k.Register tell).isSome = k.ready.closed := by
  unfold Kontrol.Register Chan.recv
  cases hc : k.ready.closed with
  | false => simp
  | true =>
    simp only [if_true]
    split
    · rfl
    · rfl
    · split
      · rfl
      · split <;> rfl

/-- `getKites` has passed the gate exactly when `ready` is closed. -/
theorem getKites_isSome (k : Kontrol) (now : Nat → Int) (tick : Nat)
    (tell : Tell (List protocol.KiteWithToken)) (args : List Arg) :
    (k.getKites now tick tell args).isSome = k.ready.closed := by
  unfold Kontrol.getKites Chan.recv
  cases hc : k.ready.closed with
  | false => simp
  | true =>
    simp only [if_true]
    split
    · rfl
    · rfl
    · split <;> rfl

/-- `GetToken` has passed the gate exactly when `ready` is closed. -/
theorem GetToken_isSome (k : Kontrol) (tell : Tell (Option protocol.Token))
    (kite : protocol.Kite) : (k.GetToken tell kite).isSome = k.ready.closed := by
  unfold Kontrol.GetToken Chan.recv
  cases hc : k.ready.closed with
  | false => simp
  | true =>
    simp only [if_true]
    split <;> rfl

/-- `WatchKites` has passed the gate exactly when `ready` is closed. -/
theorem WatchKites_isSome (k : Kontrol) (now : Nat → Int) (tick : Nat)
    (tell : Tell (List protocol.KiteWithToken)) (query : String) :
    (k.WatchKites now tick tell query).isSome = k.ready.closed := by
  cases hc : k.ready.closed with
  | false => simp [Kontrol.WatchKites, Chan.recv, hc]
  | true =>
    simp only [Kontrol.WatchKites, Kontrol.getKites, Chan.recv, hc, if_true]
    cases ht : tell "getKites" [Arg.query query, Arg.callback] with
    | error err =>
      by_cases he : err = GoError.ErrNoKitesAvailable <;> simp [he, watchLoop]
    | ok inner =>
      cases inner with
      | error err =>
        by_cases he : err = GoError.ErrNoKitesAvailable <;> simp [he, watchLoop]
      | ok L =>
        by_cases hl : L.length = 0
        · simp [hl, watchLoop]
        · obtain ⟨evs, h1, -⟩ := watchLoop_getKitesLoop now L tick (tick + L.length)
          simp [hl, h1]

/-- While the `Once` is done exactly when `ready` is closed, a notification
never panics, keeps that relation, and leaves the gate set if it was set or
if the notification is a connect. -/
theorem notify_gate (k : Kontrol) (n : Notification)
    (hinv : k.once.done = k.ready.closed) :
    ∃ k1, k.notify n = some k1 ∧ k1.once.done = k1.ready.closed ∧
      k1.ready.closed = (k.ready.closed || decide (n = Notification.connect)) := by
  cases n with
  | disconnect => exact ⟨k, rfl, hinv, by simp⟩
  | connect =>
    cases hc : k.ready.closed with
    | true =>
      have hd : k.once.done = true := by rw [hinv, hc]
      refine ⟨k, ?_, hinv, by simp [hc]⟩
      simp [Kontrol.notify, Kontrol.onConnect, Once.Do, hd]
    | false =>
      have hd : k.once.done = false := by rw [hinv, hc]
      refine ⟨{ k with once := ⟨true⟩, ready := ⟨true⟩ }, ?_, rfl, by simp⟩
      simp [Kontrol.notify, Kontrol.onConnect, Once.Do, Chan.close, hd, hc]

/-- The gate trace starts with the present value of the gate. -/
theorem gateTrace_head (k : Kontrol) (ns : List Notification) :
    ∃ tl, k.gateTrace ns = k.ready.closed :: tl := by
  cases ns with
  | nil => exact ⟨[], rfl⟩
  | cons n ns => exact ⟨_, rfl⟩

/-- The run of a client over a sequence of notifications, from any state in
which the `Once` is done exactly when `ready` is closed. -/
theorem notifyAll_gate (k : Kontrol) (ns : List Notification)
    (hinv : k.once.done = k.ready.closed) :
    ∃ k1, k.notifyAll ns = some k1 ∧ k1.once.done = k1.ready.closed ∧
      (k1.ready.closed = true ↔ (k.ready.closed = true ∨ Notification.connect ∈ ns)) ∧
      k.gateTrace ns = (List.range (ns.length + 1)).map
        (fun i => k.ready.closed || decide (Notification.connect ∈ ns.take i)) ∧
      risingEdges (k.gateTrace ns) ≤ (if k.ready.closed = true then 0 else 1) := by
  induction ns generalizing k with
  | nil =>
    refine ⟨k, rfl, hinv, by simp, by simp [Kontrol.gateTrace], ?_⟩
    simp [Kontrol.gateTrace, risingEdges]
  | cons n ns ih =>
    obtain ⟨k1, hk1, hinv1, hc1⟩ := notify_gate k n hinv
    obtain ⟨k2, hk2, hinv2, hc2, htr, hre⟩ := ih k1 hinv1
    obtain ⟨tl, htl⟩ := gateTrace_head k1 ns
    have htrace : k.gateTrace (n :: ns) = k.ready.closed :: k1.gateTrace ns := by
      simp [Kontrol.gateTrace, hk1]
    refine ⟨k2, ?_, hinv2, ?_, ?_, ?_⟩
    · simp [Kontrol.notifyAll, hk1, hk2]
    · rw [hc2, hc1]
      cases n <;> simp
    · rw [htrace, htr]
      conv_rhs => rw [List.length_cons, List.range_succ_eq_map, List.map_cons, List.map_map]
      have hf0 : (k.ready.closed || decide (Notification.connect ∈ List.take 0 (n :: ns)))
          = k.ready.closed := by simp
      rw [hf0]
      congr 1
      apply List.map_congr_left
      intro i _
      simp only [Function.comp, List.take_succ_cons, List.mem_cons, hc1]
      cases n <;> cases k.ready.closed <;> simp
    · rw [htrace, htl]
      rw [htl] at hre
      simp only [risingEdges]
      cases hk : k.ready.closed <;> cases hkk : k1.ready.closed <;>
        simp only [hk, hkk] at hc1 hre ⊢ <;> simp at hc1 hre ⊢ <;> omega

/-- C9: the client made by `NewKontrol` has its gate unset. For every finite
sequence of connect and disconnect notifications no handler panics, and the
gate after the first `i` notifications is set exactly when a connect is among
them: unset before the first connect, set from it on, never unset again. The
gate goes from unset to set at most once. After the sequence, `Register`,
`GetKites`, `WatchKites` and `GetToken` get past the gate, to their remote
call, exactly when a connect has been delivered. -/
theorem readiness_gate_fires_once (kite : Kite) (host : String) (ns : List Notification) :
    (NewKontrol kite host).ready.closed = false ∧
    (NewKontrol kite host).gateTrace ns = (List.range (ns.length + 1)).map
      (fun i => decide (Notification.connect ∈ ns.take i)) ∧
    risingEdges ((NewKontrol kite host).gateTrace ns) ≤ 1 ∧
    ∃ k1, (NewKontrol kite host).notifyAll ns = some k1 ∧
      (k1.ready.closed = true ↔ Notification.connect ∈ ns) ∧
      (∀ tell, (k1.Register tell).isSome = true ↔ Notification.connect ∈ ns) ∧
      (∀ now tick tell query,
        (k1.GetKites now tick tell query).isSome = true ↔ Notification.connect ∈ ns) ∧
      (∀ now tick tell query,
        (k1.WatchKites now tick tell query).isSome = true ↔ Notification.connect ∈ ns) ∧
      (∀ tell identity,
        (k1.GetToken tell identity).isSome = true ↔ Notification.connect ∈ ns) := by
  obtain ⟨k1, hk1, -, hc, htr, hre⟩ := notifyAll_gate (NewKontrol kite host) ns rfl
  have h0 : (NewKontrol kite host).ready.closed = false := rfl
  have hc1 : k1.ready.closed = true ↔ Notification.connect ∈ ns := by
    rw [hc, h0]
    simp
  refine ⟨rfl, ?_, ?_, k1, hk1, hc1, ?_, ?_, ?_, ?_⟩
  · rw [htr, h0]
    simp
  · rw [h0] at hre
    simpa using hre
  · intro tell
    rw [Register_isSome, hc1]
  · intro now tick tell query
    rw [Kontrol.GetKites, getKites_isSome, hc1]
  · intro now tick tell query
    rw [WatchKites_isSome, hc1]
  · intro tell identity
    rw [GetToken_isSome, hc1]

end kite
